import Mathlib

/-!
# Verification of the waffle-car differential-drive motor control subsystem

Shallow embedding of `src/odrive_uart.py` (the Link / AxisController layer)
and `src/motor_control.py` (the MotorControlFacade), together with proofs
about the spec's testable properties.

Modelling conventions:
* floating-point quantities are embedded as rationals (`ℚ`), exact arithmetic;
* the serial bus is a state record: a stale input buffer, the list of replies
  that the hardware will deliver to subsequent reads (in order), and the list
  of written command strings; `readline` with an expired timeout yields `""`
  (pyserial returns whatever partial data arrived, here nothing);
* reply strings are ASCII, as guaranteed by `decode('ascii')` in
  `send_command` (a non-ASCII reply raises there, outside the parsers);
* exceptions raised by hardware writes are modelled by an `Env` record saying
  which operation raises; `try/except` blocks become case splits on `Env`.
-/

namespace WaffleCar

/-! ## The serial Link (`ODriveUART.send_command`, odrive_uart.py lines 44-54) -/

/-- State of the serial bus.
`stale` is the content of the input buffer right now (unread leftovers from
earlier exchanges), `pending` the replies the hardware will produce for
subsequent reads, `written` the log of everything written to the wire. -/
structure Bus where
  stale : List String
  pending : List String
  written : List String
deriving DecidableEq

/-- Python `str.strip()`: drop leading and trailing whitespace (for the
ASCII serial replies at hand, `Char.isWhitespace` covers the stripped set). -/
def strip (s : String) : String :=
  String.mk (((s.data.dropWhile Char.isWhitespace).reverse.dropWhile
    Char.isWhitespace).reverse)

/-- Python `s.startswith(c)` for a single-character prefix `c`. -/
def startsWithChar (s : String) (c : Char) : Bool :=
  match s.data with
  | [] => false
  | a :: _ => a == c

/-- `bus.readline()`: return the first available line - stale buffered data
first, then fresh hardware replies; on timeout (nothing available) pyserial
returns the empty string. -/
def readLine (b : Bus) : String × Bus :=
  match b.stale with
  | r :: rest => (r, { b with stale := rest })
  | [] =>
    match b.pending with
    | r :: rest => (r, { b with pending := rest })
    | [] => ("", b)

/-- `ODriveUART.send_command` (odrive_uart.py lines 44-54):
`reset_input_buffer()`, write `command + "\n"`, and only for commands starting
with `'r'` or `'f'` read one line, strip it and return it; other commands
return `None`. -/
def sendCommand (b : Bus) (command : String) : Option String × Bus :=
  let b1 : Bus := { b with stale := [] }
  let b2 : Bus := { b1 with written := b1.written ++ [command ++ "\n"] }
  if startsWithChar command 'r' || startsWithChar command 'f' then
    let rb := readLine b2
    (some (strip rb.1), rb.2)
  else
    (none, b2)

/-! ## Error-register parsing (`get_errors`, `has_errors`) -/

/-- `''.join(c for c in response if c.isdigit())` - keep only digit characters
(over ASCII replies, Python `isdigit` coincides with `Char.isDigit`). -/
def cleanDigits (s : String) : String :=
  String.mk (s.data.filter Char.isDigit)

/-- Value of Python `int(s)` on a nonempty all-digit ASCII string. -/
def digitsToNat (s : String) : ℕ :=
  s.data.foldl (fun n c => 10 * n + (c.toNat - 48)) 0

/-- The digit-stripping parse used by `get_errors` / `has_errors`:
`int(cleaned_response)` succeeds iff at least one digit survived the filter
(an empty string raises `ValueError`). -/
def parseErrorCode (s : String) : Option ℕ :=
  if cleanDigits s = "" then none else some (digitsToNat (cleanDigits s))

/-- `ODriveUART.get_errors` (odrive_uart.py lines 68-81), restricted to the
error code (the associated name lookup in `ERROR_DICT` is informational only):
`error_code` starts at `-1` and is replaced by the parsed value only when the
parse succeeds. The argument is the (already stripped) reply returned by
`send_command(f'r axis{axis}.error')`. -/
def get_errors (reply : String) : ℤ :=
  match parseErrorCode reply with
  | some n => (n : ℤ)
  | none => -1

/-- One axis of the `has_errors` loop body: the reply is a fault when it does
not parse (`ValueError` → `return True`) or parses to a non-zero code. -/
def axisBad (reply : String) : Bool :=
  match parseErrorCode reply with
  | none => true
  | some n => decide (n ≠ 0)

/-- `ODriveUART` object state: the bus plus the configured axis mapping
(construction parameters `left_axis`, `right_axis`). -/
structure ODrive where
  bus : Bus
  left_axis : ℕ
  right_axis : ℕ
deriving DecidableEq

/-- `ODriveUART.has_errors` (odrive_uart.py lines 83-97): `for axis in [0,1]`
(hard-coded indices), query `r axis{axis}.error`; return `True` at the first
axis whose reply fails to parse or parses non-zero; `False` after both axes
parse to zero. The loop over the literal list `[0, 1]` is unrolled. -/
def has_errors (o : ODrive) : Bool × ODrive :=
  let q0 := sendCommand o.bus "r axis0.error"
  let r0 := q0.1.getD ""
  if axisBad r0 then (true, { o with bus := q0.2 })
  else
    let q1 := sendCommand q0.2 "r axis1.error"
    let r1 := q1.1.getD ""
    if axisBad r1 then (true, { o with bus := q1.2 })
    else (false, { o with bus := q1.2 })

/-! ## Axis-level write commands (odrive_uart.py)

Write commands never read the bus (`send_command` returns `None` for them),
so for the facade layer they are modelled as an abstract command trace. -/

/-- Abstract view of the write commands issued to the ODrive.
`inputVel axis rps` is `w axis{axis}.controller.input_vel {rps}`,
`requestedState axis s` is `w axis{axis}.requested_state {s}`,
`errorWrite axis` is `w axis{axis}.error 0`,
`torque axis t` is `c {axis} {t}` and `torqueUpdate axis` is `u {axis}`.
`dumpErrors` stands for the diagnostic queries of `dump_errors` and
`resetInit` for the whole `reset_and_initialize_motors` hardware
re-initialization sequence (its internals decide no claim). -/
inductive Cmd where
  | inputVel (axis : ℕ) (rps : ℚ)
  | requestedState (axis : ℕ) (state : ℕ)
  | errorWrite (axis : ℕ)
  | torque (axis : ℕ) (nm : ℚ)
  | torqueUpdate (axis : ℕ)
  | dumpErrors
  | resetInit
deriving DecidableEq

/-- `ODriveUART.set_speed_rpm` (odrive_uart.py lines 204-209):
`rps = rpm / 60`, write `rps * direction` to the velocity-input register. -/
def set_speed_rpm (axis : ℕ) (rpm direction : ℚ) : Cmd :=
  Cmd.inputVel axis (rpm / 60 * direction)

/-- `ODriveUART.set_idle` (odrive_uart.py lines 328-334):
write requested_state 1 (idle). -/
def set_idle (axis : ℕ) : Cmd :=
  Cmd.requestedState axis 1

/-- `ODriveUART.clear_errors` (odrive_uart.py lines 372-377): write zero to
the error register, then re-request closed-loop control (state 8). -/
def clear_errors (axis : ℕ) : List Cmd :=
  [Cmd.errorWrite axis, Cmd.requestedState axis 8]

/-- `ODriveUART.set_torque_nm` (odrive_uart.py lines 231-238): a fixed
`torque_bias = 0.05` N·m applied in the direction of motion
(`1 if nm >= 0 else -1`), then the torque write `c {axis} {t}` followed by
the latch pulse `u {axis}`. -/
def set_torque_nm (axis : ℕ) (nm direction : ℚ) : List Cmd :=
  let torque_bias : ℚ := 1 / 20
  let adjusted_torque : ℚ :=
    nm * direction + torque_bias * direction * (if 0 ≤ nm then 1 else -1)
  [Cmd.torque axis adjusted_torque, Cmd.torqueUpdate axis]

/-! ## Kinematics (spec §4.3) and the facade (motor_control.py) -/

/-- The differential-drive decomposition of spec §4.3:
`angularComponent = trackWidth * angular / 2`, left wheel slower for
positive angular rate. -/
def bodyToWheel (linear angular trackWidth : ℚ) : ℚ × ℚ :=
  let angularComponent := trackWidth * angular / 2
  (linear - angularComponent, linear + angularComponent)

/-- Symmetric clipping `max(min(x, m), -m)` as written in
motor_control.py lines 203-204. -/
def clipSym (x m : ℚ) : ℚ :=
  max (min x m) (-m)

/-- Static configuration (constants.py is not part of the sources; these are
the configuration inputs the spec requires from the environment:
`MOTOR_CONTROL_MAX_SPEED_LINEAR_MPS`, `MOTOR_CONTROL_MAX_SPEED_ANGULAR_RADPS`,
`ROBOT_WHEEL_DIST_M`, and the derived constant `RPM_TO_METERS_PER_SECOND =
ROBOT_WHEEL_RADIUS_M * 2 * pi / 60`). -/
structure Config where
  maxLinear : ℚ
  maxAngular : ℚ
  trackWidth : ℚ
  rpmToMps : ℚ
deriving DecidableEq

/-- The wheel-velocity computation of `set_linear_angular_velocities`
(motor_control.py lines 202-213): clip both inputs to the configured maxima,
then the differential-drive decomposition. -/
def wheelVelocities (cfg : Config) (v w : ℚ) : ℚ × ℚ :=
  let v' := clipSym v cfg.maxLinear
  let w' := clipSym w cfg.maxAngular
  let angular_component := cfg.trackWidth * w' / 2
  (v' - angular_component, v' + angular_component)

/-- Mutable facade state (`MotorControl`): the `is_idle` flag and the
`cycle_count` tick counter, plus the construction-time axis indices and
direction signs it passes to `ODriveUART`. -/
structure MC where
  is_idle : Bool
  cycle_count : ℕ
  leftAxis : ℕ
  rightAxis : ℕ
  dirLeft : ℚ
  dirRight : ℚ
deriving DecidableEq

/-- Which internal exceptions occur during a call (the `try/except` blocks
of motor_control.py become case splits on this record).
`stopFailAt = some k` means the `(k+1)`-th hardware write inside `stop()`
raises (the first `k` writes having succeeded); `healthFault` is the value
`has_errors()` returns; `healthExn` means the periodic error check itself
raises before the fault handling; `setSpeedFails` means the motor-speed
write of step 5 raises. -/
structure Env where
  healthFault : Bool
  healthExn : Bool
  stopFailAt : Option (Fin 4)
  setSpeedFails : Bool
deriving DecidableEq

/-- The four hardware writes of `MotorControl.stop` (motor_control.py lines
272-277), in source order: zero velocity to left then right, then idle left
then right. -/
def stopWrites (m : MC) : List Cmd :=
  [set_speed_rpm m.leftAxis 0 m.dirLeft,
   set_speed_rpm m.rightAxis 0 m.dirRight,
   set_idle m.leftAxis,
   set_idle m.rightAxis]

/-- `MotorControl.stop` (motor_control.py lines 265-281): the four writes and
`is_idle = True` are inside one `try`; an exception at write `k` leaves the
first `k` writes issued, is caught and printed, and skips the
`is_idle = True` assignment. `stop` itself never raises. -/
def stop (env : Env) (m : MC) : MC × List Cmd :=
  match env.stopFailAt with
  | none => ({ m with is_idle := true }, stopWrites m)
  | some k => (m, (stopWrites m).take k)

/-- `MotorControl.emergency_stop` (motor_control.py lines 238-263): first
tries `self.stop()`; since `stop` catches every exception internally, the
fallback branches (direct zero-velocity writes, direct idle) are unreachable
and the call always reduces to the `stop()` attempt. -/
def emergency_stop (env : Env) (m : MC) : MC × List Cmd :=
  stop env m

/-- Steps 1-2 of `set_linear_angular_velocities` (motor_control.py lines
166-181): the zero-velocity `stop()` call (whose `return` is commented out in
the source, so execution continues) followed by the `is_idle` clear-errors
re-arming. -/
def slavStep12 (env : Env) (m : MC) (v w : ℚ) : MC × List Cmd :=
  let s1 := if v = 0 ∧ w = 0 then stop env m else (m, [])
  let m1 := s1.1
  if m1.is_idle then
    ({ m1 with is_idle := false },
      s1.2 ++ (clear_errors m1.leftAxis ++ clear_errors m1.rightAxis))
  else (m1, s1.2)

/-- `MotorControl.set_linear_angular_velocities` (motor_control.py lines
157-236), translated clause by clause:
1. if both targets are exactly zero, call `stop()` (the `return` after it is
   commented out in the source, so execution falls through);
2. if `is_idle`, clear errors on both axes and set `is_idle = False`
   (steps 1-2 are `slavStep12`);
3. every 20th cycle run `has_errors()`; on a detected fault dump errors,
   `emergency_stop`, `reset_and_initialize_motors` and return; on an
   exception in the check, `emergency_stop`, reset and return;
4. clip to the configured maxima, compute wheel velocities, convert to RPM
   (`/ RPM_TO_METERS_PER_SECOND`) and write both speeds; an exception there
   triggers `emergency_stop`, reset and return;
5. otherwise increment `cycle_count`.
Error-register reads of the health check are queries, not writes, and are
not part of the command trace. -/
def set_linear_angular_velocities (cfg : Config) (env : Env) (m : MC)
    (v w : ℚ) : MC × List Cmd :=
  let s12 := slavStep12 env m v w
  let m2 := s12.1
  if m2.cycle_count % 20 = 0 ∧ (env.healthFault = true ∨ env.healthExn = true)
  then
    let evDump : List Cmd :=
      if env.healthExn then [] else [Cmd.dumpErrors]
    let s3 := emergency_stop env m2
    (s3.1, s12.2 ++ evDump ++ s3.2 ++ [Cmd.resetInit])
  else if env.setSpeedFails then
    let s3 := emergency_stop env m2
    (s3.1, s12.2 ++ s3.2 ++ [Cmd.resetInit])
  else
    let lr := wheelVelocities cfg v w
    let left_wheel_rpm := lr.1 / cfg.rpmToMps
    let right_wheel_rpm := lr.2 / cfg.rpmToMps
    ({ m2 with cycle_count := m2.cycle_count + 1 },
      s12.2 ++
        [set_speed_rpm m2.leftAxis left_wheel_rpm m2.dirLeft,
         set_speed_rpm m2.rightAxis right_wheel_rpm m2.dirRight])

/-! ## Helper lemmas -/

theorem sendCommand_query_eq (b : Bus) (cmd : String)
    (h : (startsWithChar cmd 'r' || startsWithChar cmd 'f') = true) :
    sendCommand b cmd =
      (some (strip (b.pending.headD "")),
        { stale := [], pending := b.pending.tail,
          written := b.written ++ [cmd ++ "\n"] }) := by
  unfold sendCommand
  rw [if_pos h]
  cases hp : b.pending with
  | nil => simp [readLine, hp]
  | cons r rest => simp [readLine, hp]

theorem sendCommand_write_eq (b : Bus) (cmd : String)
    (h : (startsWithChar cmd 'r' || startsWithChar cmd 'f') = false) :
    sendCommand b cmd =
      (none,
        { stale := [], pending := b.pending,
          written := b.written ++ [cmd ++ "\n"] }) := by
  unfold sendCommand
  rw [if_neg (by simp [h])]

theorem startsWithChar_error_query (axis : ℕ) :
    (startsWithChar ("r axis" ++ toString axis ++ ".error") 'r' ||
      startsWithChar ("r axis" ++ toString axis ++ ".error") 'f') = true := by
  simp [startsWithChar, String.data_append]

/-- Closed form of `has_errors`, shared by the bus-level claim proofs:
the first reply decides whether the second axis is queried at all. -/
theorem has_errors_eq (o : ODrive) :
    has_errors o =
      if axisBad (strip (o.bus.pending.head?.getD "")) then
        (true, { o with bus :=
          { stale := [], pending := o.bus.pending.tail,
            written := o.bus.written ++ ["r axis0.error\n"] } })
      else
        ((axisBad (strip (o.bus.pending[1]?.getD ""))),
          { o with bus :=
            { stale := [], pending := o.bus.pending.tail.tail,
              written := o.bus.written ++
                ["r axis0.error\n", "r axis1.error\n"] } }) := by
  have e0 : ∀ b : Bus, sendCommand b "r axis0.error" =
      (some (strip (b.pending.headD "")),
        { stale := [], pending := b.pending.tail,
          written := b.written ++ ["r axis0.error\n"] }) :=
    fun b => sendCommand_query_eq b _ rfl
  have e1 : ∀ b : Bus, sendCommand b "r axis1.error" =
      (some (strip (b.pending.headD "")),
        { stale := [], pending := b.pending.tail,
          written := b.written ++ ["r axis1.error\n"] }) :=
    fun b => sendCommand_query_eq b _ rfl
  by_cases h0 : axisBad (strip (o.bus.pending.head?.getD "")) = true
  · simp [has_errors, e0, h0]
  · simp only [Bool.not_eq_true] at h0
    simp only [has_errors, e0, e1, h0]
    cases h1 : axisBad (strip (o.bus.pending[1]?.getD "")) <;>
      simp [has_errors, e0, e1, h0, h1, List.append_assoc]

theorem stop_cycle_count (env : Env) (m : MC) :
    (stop env m).1.cycle_count = m.cycle_count := by
  unfold stop
  cases env.stopFailAt <;> rfl

theorem stop_fields (env : Env) (m : MC) :
    (stop env m).1.leftAxis = m.leftAxis ∧
    (stop env m).1.rightAxis = m.rightAxis ∧
    (stop env m).1.dirLeft = m.dirLeft ∧
    (stop env m).1.dirRight = m.dirRight := by
  unfold stop
  cases env.stopFailAt <;> exact ⟨rfl, rfl, rfl, rfl⟩

theorem mem_stopWrites_inputVel (m : MC) (a : ℕ) (q : ℚ)
    (h : Cmd.inputVel a q ∈ stopWrites m) : q = 0 := by
  simp only [stopWrites, set_speed_rpm, set_idle, List.mem_cons,
    List.not_mem_nil, or_false] at h
  rcases h with h | h | h | h <;>
    first
      | (cases h; simp)
      | (exact absurd h (by simp))

theorem mem_stop_inputVel (env : Env) (m : MC) (a : ℕ) (q : ℚ)
    (h : Cmd.inputVel a q ∈ (stop env m).2) : q = 0 := by
  apply mem_stopWrites_inputVel m a q
  unfold stop at h
  cases hf : env.stopFailAt with
  | none => rw [hf] at h; exact h
  | some k => rw [hf] at h; exact List.take_subset _ _ h

theorem mem_clear_errors (axis : ℕ) (c : Cmd) (h : c ∈ clear_errors axis) :
    c = Cmd.errorWrite axis ∨ c = Cmd.requestedState axis 8 := by
  simp only [clear_errors, List.mem_cons, List.not_mem_nil, or_false] at h
  exact h

theorem slavStep12_cycle (env : Env) (m : MC) (v w : ℚ) :
    (slavStep12 env m v w).1.cycle_count = m.cycle_count := by
  unfold slavStep12
  split <;> simp only [] <;> split <;> simp [stop_cycle_count]

theorem slavStep12_fields (env : Env) (m : MC) (v w : ℚ) :
    (slavStep12 env m v w).1.leftAxis = m.leftAxis ∧
    (slavStep12 env m v w).1.rightAxis = m.rightAxis ∧
    (slavStep12 env m v w).1.dirLeft = m.dirLeft ∧
    (slavStep12 env m v w).1.dirRight = m.dirRight := by
  unfold slavStep12
  split <;> simp only [] <;> split <;> simp [stop_fields]

theorem slavStep12_inputVel (env : Env) (m : MC) (v w : ℚ) (a : ℕ) (q : ℚ)
    (h : Cmd.inputVel a q ∈ (slavStep12 env m v w).2) : q = 0 := by
  unfold slavStep12 at h
  split at h
  · simp only [] at h
    split at h
    · simp only [List.mem_append] at h
      rcases h with h | h
      · exact mem_stop_inputVel _ _ _ _ h
      · rcases h with h | h <;>
          rcases mem_clear_errors _ _ h with h | h <;> cases h
    · exact mem_stop_inputVel _ _ _ _ h
  · simp only [] at h
    split at h
    · simp only [List.nil_append, List.mem_append] at h
      rcases h with h | h <;>
        rcases mem_clear_errors _ _ h with h | h <;> cases h
    · simp at h

theorem abs_clipSym_le (x b : ℚ) (hb : 0 ≤ b) : |clipSym x b| ≤ b := by
  rw [abs_le]
  refine ⟨le_max_right _ _, max_le (min_le_right _ _) (by linarith)⟩

theorem clipSym_zero (b : ℚ) (hb : 0 ≤ b) : clipSym 0 b = 0 := by
  unfold clipSym
  rw [min_eq_left hb, max_eq_left (neg_nonpos.mpr hb)]

theorem wheelVelocities_zero (cfg : Config)
    (hL : 0 ≤ cfg.maxLinear) (hA : 0 ≤ cfg.maxAngular) :
    wheelVelocities cfg 0 0 = (0, 0) := by
  unfold wheelVelocities
  rw [clipSym_zero _ hL, clipSym_zero _ hA]
  norm_num

theorem wheelVelocities_bound (cfg : Config) (v w : ℚ)
    (hL : 0 ≤ cfg.maxLinear) (hA : 0 ≤ cfg.maxAngular)
    (hW : 0 ≤ cfg.trackWidth) :
    |(wheelVelocities cfg v w).1| ≤
      cfg.maxLinear + cfg.trackWidth * cfg.maxAngular / 2 ∧
    |(wheelVelocities cfg v w).2| ≤
      cfg.maxLinear + cfg.trackWidth * cfg.maxAngular / 2 := by
  have h1 := abs_le.mp (abs_clipSym_le v cfg.maxLinear hL)
  have h2 := abs_le.mp (abs_clipSym_le w cfg.maxAngular hA)
  have p1 : cfg.trackWidth * clipSym w cfg.maxAngular ≤
      cfg.trackWidth * cfg.maxAngular :=
    mul_le_mul_of_nonneg_left h2.2 hW
  have p2 : cfg.trackWidth * -cfg.maxAngular ≤
      cfg.trackWidth * clipSym w cfg.maxAngular :=
    mul_le_mul_of_nonneg_left h2.1 hW
  unfold wheelVelocities
  simp only []
  constructor <;> rw [abs_le] <;> constructor <;> nlinarith [h1.1, h1.2]

/-- Claim C7: `bodyToWheel` is antisymmetric in the angular argument at zero
linear velocity: negating the angular rate swaps the left and right wheel
velocities. -/
theorem bodyToWheel_antisymmetric (a trackWidth : ℚ) :
    bodyToWheel 0 (-a) trackWidth =
      ((bodyToWheel 0 a trackWidth).2, (bodyToWheel 0 a trackWidth).1) := by
  simp only [bodyToWheel, Prod.ext_iff]
  constructor <;> ring

/-- Claim C8: `set_torque_nm` writes the torque setpoint `nm * d` plus a
fixed `0.05` N·m bias whose sign is `d` times the sign of `nm` (with `nm = 0`
counted positive), as the command `c {axis} {torque}` followed by the latch
pulse `u {axis}`; in particular for a direction sign of `±1` the written
magnitude is exactly `|nm| + 0.05`. -/
theorem set_torque_bias_latch (axis : ℕ) (nm d : ℚ) (hd : d = 1 ∨ d = -1) :
    set_torque_nm axis nm d =
      [Cmd.torque axis
        (nm * d + 1 / 20 * (d * (if 0 ≤ nm then 1 else -1))),
       Cmd.torqueUpdate axis] ∧
    |nm * d + 1 / 20 * (d * (if 0 ≤ nm then 1 else -1))| = |nm| + 1 / 20 := by
  constructor
  · unfold set_torque_nm
    simp only []
    rw [mul_assoc]
  · rcases hd with hd | hd <;> subst hd <;> rcases le_or_lt 0 nm with h | h
    · rw [if_pos h, abs_of_nonneg h, abs_of_nonneg (by linarith)]
      ring
    · rw [if_neg (not_le.mpr h), abs_of_neg h, abs_of_neg (by linarith)]
      ring
    · rw [if_pos h, abs_of_nonneg h, abs_of_neg (by linarith)]
      ring
    · rw [if_neg (not_le.mpr h), abs_of_neg h, abs_of_nonneg (by linarith)]
      ring

/-- Witness for C8 at `axis = 0`, `nm = -2`, `d = -1`. -/
theorem set_torque_bias_latch_witness :
    ((-1 : ℚ) = 1 ∨ (-1 : ℚ) = -1) ∧
    (set_torque_nm 0 (-2) (-1) =
      [Cmd.torque 0
        ((-2) * (-1) + 1 / 20 * ((-1) * (if (0 : ℚ) ≤ -2 then 1 else -1))),
       Cmd.torqueUpdate 0] ∧
     |(-2 : ℚ) * (-1) + 1 / 20 * ((-1) * (if (0 : ℚ) ≤ -2 then 1 else -1))| =
       |(-2 : ℚ)| + 1 / 20) :=
  ⟨Or.inr rfl, set_torque_bias_latch 0 (-2) (-1) (Or.inr rfl)⟩

theorem slav_inputVel_cases (cfg : Config) (env : Env) (m : MC) (v w : ℚ)
    (a : ℕ) (q : ℚ)
    (h : Cmd.inputVel a q ∈ (set_linear_angular_velocities cfg env m v w).2) :
    q = 0 ∨
    q = (wheelVelocities cfg v w).1 / cfg.rpmToMps / 60 * m.dirLeft ∨
    q = (wheelVelocities cfg v w).2 / cfg.rpmToMps / 60 * m.dirRight := by
  unfold set_linear_angular_velocities at h
  simp only [] at h
  split at h
  · simp only [List.mem_append] at h
    rcases h with ((h | h) | h) | h
    · exact Or.inl (slavStep12_inputVel _ _ _ _ _ _ h)
    · split at h <;> simp at h
    · exact Or.inl (mem_stop_inputVel _ _ _ _ h)
    · simp at h
  · split at h
    · simp only [List.mem_append] at h
      rcases h with (h | h) | h
      · exact Or.inl (slavStep12_inputVel _ _ _ _ _ _ h)
      · exact Or.inl (mem_stop_inputVel _ _ _ _ h)
      · simp at h
    · simp only [List.mem_append, List.mem_cons, List.not_mem_nil,
        or_false] at h
      rcases h with h | h | h
      · exact Or.inl (slavStep12_inputVel _ _ _ _ _ _ h)
      · simp only [set_speed_rpm, Cmd.inputVel.injEq] at h
        rw [(slavStep12_fields env m v w).2.2.1] at h
        exact Or.inr (Or.inl h.2)
      · simp only [set_speed_rpm, Cmd.inputVel.injEq] at h
        rw [(slavStep12_fields env m v w).2.2.2] at h
        exact Or.inr (Or.inr h.2)

/-- Claim C5: for all finite inputs, the per-wheel velocities the facade
computes equal `bodyToWheel` applied to the clipped inputs, and every
velocity setpoint the call sends obeys the clipped bound: the wheel speed it
encodes (the sent rotations-per-second value scaled back by
`60 * RPM_TO_METERS_PER_SECOND`) never exceeds
`maxLinear + trackWidth * maxAngular / 2` in magnitude. -/
theorem clipped_wheel_velocity_bound (cfg : Config) (env : Env) (m : MC)
    (v w : ℚ)
    (hdl : m.dirLeft = 1 ∨ m.dirLeft = -1)
    (hdr : m.dirRight = 1 ∨ m.dirRight = -1)
    (hρ : 0 < cfg.rpmToMps) (hL : 0 ≤ cfg.maxLinear)
    (hA : 0 ≤ cfg.maxAngular) (hW : 0 ≤ cfg.trackWidth) :
    wheelVelocities cfg v w =
      bodyToWheel (clipSym v cfg.maxLinear) (clipSym w cfg.maxAngular)
        cfg.trackWidth ∧
    ∀ a q, Cmd.inputVel a q ∈ (set_linear_angular_velocities cfg env m v w).2 →
      |q * (60 * cfg.rpmToMps)| ≤
        cfg.maxLinear + cfg.trackWidth * cfg.maxAngular / 2 := by
  constructor
  · rfl
  · intro a q h
    have hbound := wheelVelocities_bound cfg v w hL hA hW
    have hb0 : 0 ≤ cfg.maxLinear + cfg.trackWidth * cfg.maxAngular / 2 := by
      have := abs_nonneg (wheelVelocities cfg v w).1
      linarith [hbound.1]
    have hsent : ∀ x : ℚ, x / cfg.rpmToMps / 60 * (60 * cfg.rpmToMps) = x := by
      intro x
      field_simp
      exact Or.inl (by ring)
    rcases slav_inputVel_cases cfg env m v w a q h with h0 | hql | hqr
    · rw [h0]
      simpa using hb0
    · rw [hql, mul_comm _ m.dirLeft, mul_assoc, hsent, abs_mul]
      rcases hdl with hd | hd <;> rw [hd] <;> norm_num
      · exact hbound.1
      · exact hbound.1
    · rw [hqr, mul_comm _ m.dirRight, mul_assoc, hsent, abs_mul]
      rcases hdr with hd | hd <;> rw [hd] <;> norm_num
      · exact hbound.2
      · exact hbound.2

/-- Witness for C5 at the spec reference configuration (maxima 4 m/s and
8 rad/s, track width 1/2 m) and an out-of-range command (100, -50). -/
theorem clipped_wheel_velocity_bound_witness :
    (((⟨false, 1, 0, 1, 1, 1⟩ : MC).dirLeft = 1 ∨
        (⟨false, 1, 0, 1, 1, 1⟩ : MC).dirLeft = -1) ∧
      ((⟨false, 1, 0, 1, 1, 1⟩ : MC).dirRight = 1 ∨
        (⟨false, 1, 0, 1, 1, 1⟩ : MC).dirRight = -1) ∧
      (0 : ℚ) < (⟨4, 8, 1/2, 1⟩ : Config).rpmToMps ∧
      (0 : ℚ) ≤ (⟨4, 8, 1/2, 1⟩ : Config).maxLinear) ∧
    wheelVelocities ⟨4, 8, 1/2, 1⟩ 100 (-50) =
      bodyToWheel (clipSym 100 (⟨4, 8, 1/2, 1⟩ : Config).maxLinear)
        (clipSym (-50) (⟨4, 8, 1/2, 1⟩ : Config).maxAngular)
        (⟨4, 8, 1/2, 1⟩ : Config).trackWidth :=
  ⟨⟨Or.inl rfl, Or.inl rfl, by norm_num, by norm_num⟩,
    (clipped_wheel_velocity_bound ⟨4, 8, 1/2, 1⟩ ⟨false, false, none, false⟩
      ⟨false, 1, 0, 1, 1, 1⟩ 100 (-50) (Or.inl rfl) (Or.inl rfl)
      (by norm_num) (by norm_num) (by norm_num) (by norm_num)).1⟩

/-- Claim C4: whenever the periodic health check runs
(`cycle_count % 20 == 0`) and detects a fault (`has_errors` true, or the
check itself raises), the call performs Recovery (`emergency_stop` followed
by `reset_and_initialize_motors`) and returns immediately: nothing follows
the re-initialization in the trace, no velocity setpoint other than the
zero writes of the emergency stop is issued (the triggering command is
dropped), and `cycle_count` is left unchanged (the command is not
retried). -/
theorem health_fault_drops_command (cfg : Config) (env : Env) (m : MC)
    (v w : ℚ)
    (h1 : m.cycle_count % 20 = 0)
    (h2 : env.healthFault = true ∨ env.healthExn = true) :
    (∀ a q,
      Cmd.inputVel a q ∈ (set_linear_angular_velocities cfg env m v w).2 →
        q = 0) ∧
    (∃ pre, (set_linear_angular_velocities cfg env m v w).2 =
      pre ++ [Cmd.resetInit]) ∧
    (set_linear_angular_velocities cfg env m v w).1.cycle_count =
      m.cycle_count := by
  have hc : (slavStep12 env m v w).1.cycle_count % 20 = 0 := by
    rw [slavStep12_cycle]
    exact h1
  unfold set_linear_angular_velocities
  simp only []
  rw [if_pos ⟨hc, h2⟩]
  refine ⟨?_, ?_, ?_⟩
  · intro a q h
    simp only [List.mem_append] at h
    rcases h with ((h | h) | h) | h
    · exact slavStep12_inputVel _ _ _ _ _ _ h
    · split at h <;> simp at h
    · exact mem_stop_inputVel _ _ _ _ h
    · simp at h
  · exact ⟨(slavStep12 env m v w).2 ++
      ((if env.healthExn then ([] : List Cmd) else [Cmd.dumpErrors]) ++
        (emergency_stop env (slavStep12 env m v w).1).2),
      by simp [List.append_assoc]⟩
  · unfold emergency_stop
    rw [stop_cycle_count, slavStep12_cycle]

/-- Witness for C4 at a fault on a check cycle (`cycle_count = 0`,
`has_errors` true): the commanded velocities of that call are dropped and
the cycle counter is unchanged. -/
theorem health_fault_drops_command_witness :
    ((⟨false, 0, 0, 1, 1, 1⟩ : MC).cycle_count % 20 = 0 ∧
      ((⟨true, false, none, false⟩ : Env).healthFault = true ∨
        (⟨true, false, none, false⟩ : Env).healthExn = true)) ∧
    (set_linear_angular_velocities ⟨4, 8, 1/2, 1⟩ ⟨true, false, none, false⟩
        ⟨false, 0, 0, 1, 1, 1⟩ 2 3).1.cycle_count =
      (⟨false, 0, 0, 1, 1, 1⟩ : MC).cycle_count :=
  ⟨⟨rfl, Or.inl rfl⟩,
    (health_fault_drops_command ⟨4, 8, 1/2, 1⟩ ⟨true, false, none, false⟩
      ⟨false, 0, 0, 1, 1, 1⟩ 2 3 rfl (Or.inl rfl)).2.2⟩

theorem slav_zero_trace_concrete :
    set_linear_angular_velocities ⟨4, 8, 1/2, 1⟩ ⟨false, false, none, false⟩
        ⟨false, 1, 0, 1, 1, 1⟩ 0 0 =
      (⟨false, 2, 0, 1, 1, 1⟩,
        [Cmd.inputVel 0 0, Cmd.inputVel 1 0,
         Cmd.requestedState 0 1, Cmd.requestedState 1 1,
         Cmd.errorWrite 0, Cmd.requestedState 0 8,
         Cmd.errorWrite 1, Cmd.requestedState 1 8,
         Cmd.inputVel 0 0, Cmd.inputVel 1 0]) := by
  have hz : (0 : ℚ) = 0 ∧ (0 : ℚ) = 0 := ⟨rfl, rfl⟩
  have hs : stop ⟨false, false, none, false⟩ ⟨false, 1, 0, 1, 1, 1⟩ =
      (⟨true, 1, 0, 1, 1, 1⟩, stopWrites ⟨false, 1, 0, 1, 1, 1⟩) := rfl
  have h12 : slavStep12 ⟨false, false, none, false⟩
      ⟨false, 1, 0, 1, 1, 1⟩ 0 0 =
      (⟨false, 1, 0, 1, 1, 1⟩,
        stopWrites ⟨false, 1, 0, 1, 1, 1⟩ ++
          (clear_errors 0 ++ clear_errors 1)) := by
    unfold slavStep12
    rw [if_pos hz, hs]
    rfl
  unfold set_linear_angular_velocities
  rw [h12]
  rw [if_neg (by simp), if_neg (by simp)]
  rw [wheelVelocities_zero _ (by norm_num) (by norm_num)]
  simp [stopWrites, clear_errors, set_speed_rpm, set_idle]

/-- Counterexample to C1 as stated: with no hardware faults, calling
`set_linear_angular_velocities 0 0` on a non-check cycle ends with
`is_idle = false` (not IDLE), re-arms axis 0 into closed-loop control
(`requested_state 8`) after `stop()` set it idle, and issues four velocity
setpoint commands - two beyond the two written by `stop()` - because the
`return` of the zero fast-path is commented out in the source. -/
theorem zero_velocity_not_idle_counterexample :
    (set_linear_angular_velocities ⟨4, 8, 1/2, 1⟩ ⟨false, false, none, false⟩
        ⟨false, 1, 0, 1, 1, 1⟩ 0 0).1.is_idle = false ∧
    Cmd.requestedState 0 8 ∈
      (set_linear_angular_velocities ⟨4, 8, 1/2, 1⟩ ⟨false, false, none, false⟩
        ⟨false, 1, 0, 1, 1, 1⟩ 0 0).2 ∧
    ((set_linear_angular_velocities ⟨4, 8, 1/2, 1⟩ ⟨false, false, none, false⟩
        ⟨false, 1, 0, 1, 1, 1⟩ 0 0).2.countP
      (fun c => match c with
        | Cmd.inputVel _ _ => true
        | _ => false)) = 4 := by
  rw [slav_zero_trace_concrete]
  refine ⟨rfl, by simp, rfl⟩

/-- Claim C1 as amended: on `(0, 0)` the facade calls `stop()` (zero
velocity written to both axes, both set idle), but the call does not return
there: the `is_idle` branch immediately clears errors and re-arms both axes
into closed-loop control, `is_idle` ends `false`, and zero velocity
setpoints are issued to both axes under active control. -/
theorem zero_velocity_falls_through (cfg : Config) (env : Env) (m : MC)
    (hL : 0 ≤ cfg.maxLinear) (hA : 0 ≤ cfg.maxAngular)
    (hstop : env.stopFailAt = none)
    (hhf : env.healthFault = false) (hhe : env.healthExn = false)
    (hss : env.setSpeedFails = false) :
    set_linear_angular_velocities cfg env m 0 0 =
      ({ m with is_idle := false, cycle_count := m.cycle_count + 1 },
        stopWrites m ++
          (clear_errors m.leftAxis ++ clear_errors m.rightAxis) ++
          [set_speed_rpm m.leftAxis 0 m.dirLeft,
           set_speed_rpm m.rightAxis 0 m.dirRight]) := by
  have hz : (0 : ℚ) = 0 ∧ (0 : ℚ) = 0 := ⟨rfl, rfl⟩
  have hs : stop env m = ({ m with is_idle := true }, stopWrites m) := by
    unfold stop
    rw [hstop]
  have h12 : slavStep12 env m 0 0 =
      ({ m with is_idle := false },
        stopWrites m ++
          (clear_errors m.leftAxis ++ clear_errors m.rightAxis)) := by
    unfold slavStep12
    rw [if_pos hz, hs]
    rfl
  unfold set_linear_angular_velocities
  rw [h12]
  simp only [hhf, hhe]
  rw [if_neg (by simp), if_neg (by simp [hss])]
  rw [wheelVelocities_zero cfg hL hA]
  simp [set_speed_rpm, List.append_assoc]

/-- Witness for C1 as amended, at the spec reference configuration and a
fault-free environment. -/
theorem zero_velocity_falls_through_witness :
    ((⟨false, false, none, false⟩ : Env).stopFailAt = none ∧
      (0 : ℚ) ≤ (⟨4, 8, 1/2, 1⟩ : Config).maxLinear) ∧
    set_linear_angular_velocities ⟨4, 8, 1/2, 1⟩ ⟨false, false, none, false⟩
        ⟨false, 1, 0, 1, 1, 1⟩ 0 0 =
      ({ (⟨false, 1, 0, 1, 1, 1⟩ : MC) with
          is_idle := false, cycle_count := 2 },
        stopWrites ⟨false, 1, 0, 1, 1, 1⟩ ++
          (clear_errors 0 ++ clear_errors 1) ++
          [set_speed_rpm 0 0 1, set_speed_rpm 1 0 1]) :=
  ⟨⟨rfl, by norm_num⟩,
    zero_velocity_falls_through ⟨4, 8, 1/2, 1⟩ ⟨false, false, none, false⟩
      ⟨false, 1, 0, 1, 1, 1⟩ (by norm_num) (by norm_num) rfl rfl rfl rfl⟩

/-- Counterexample to C3 as stated: when the very first write inside
`stop()` raises, the caught error leaves `is_idle` at its prior value
`false` - the transition to IDLE is not recorded - and no zero-velocity
write reaches either axis. -/
theorem stop_error_skips_idle_counterexample :
    (stop ⟨false, false, some 0, false⟩ ⟨false, 0, 0, 1, 1, 1⟩).1.is_idle =
      false ∧
    (stop ⟨false, false, some 0, false⟩ ⟨false, 0, 0, 1, 1, 1⟩).2 = [] :=
  ⟨rfl, rfl⟩

/-- Claim C3 as amended: `stop()` writes zero velocity to both axes, then
sets both idle, and records `is_idle = true`, when all four writes succeed;
an internal error at write `k` is caught and logged, the first `k` writes
having been issued, but the transition to IDLE is then NOT recorded
(the facade state is left unchanged). `stop` itself never raises. -/
theorem stop_records_idle_only_on_success (env : Env) (m : MC) :
    (env.stopFailAt = none →
      stop env m = ({ m with is_idle := true }, stopWrites m)) ∧
    (∀ k : Fin 4, env.stopFailAt = some k →
      (stop env m).1 = m ∧ (stop env m).2 = (stopWrites m).take k) := by
  unfold stop
  constructor
  · intro h
    rw [h]
  · intro k h
    rw [h]
    exact ⟨rfl, rfl⟩

/-- Witness for C3 as amended, in the error-free environment. -/
theorem stop_records_idle_only_on_success_witness :
    (⟨false, false, none, false⟩ : Env).stopFailAt = none ∧
    stop ⟨false, false, none, false⟩ ⟨false, 0, 0, 1, 1, 1⟩ =
      ({ (⟨false, 0, 0, 1, 1, 1⟩ : MC) with is_idle := true },
        stopWrites ⟨false, 0, 0, 1, 1, 1⟩) :=
  ⟨rfl,
    (stop_records_idle_only_on_success ⟨false, false, none, false⟩
      ⟨false, 0, 0, 1, 1, 1⟩).1 rfl⟩

/-- Counterexample to C2 as stated: a query whose reply never arrives
(empty pending reply queue) does not fail with any `ProtocolTimeout` error -
`send_command` returns normally with the value `''` (pyserial `readline`
returns the empty partial read at the timeout, and the code only prints a
message when the response is empty). -/
theorem sendCommand_timeout_no_failure_counterexample :
    (sendCommand ⟨["stale reply"], [], []⟩ "r axis0.error").1 = some "" :=
  rfl

/-- Claim C2 as amended: for every query (command starting with `r` or `f`)
with no reply available before the timeout, `send_command` returns the
empty string (after printing a no-response message); no exception is
raised and no `ProtocolTimeout` failure exists in the code. -/
theorem sendCommand_timeout_returns_empty (b : Bus) (cmd : String)
    (hq : (startsWithChar cmd 'r' || startsWithChar cmd 'f') = true)
    (hp : b.pending = []) :
    (sendCommand b cmd).1 = some "" := by
  rw [sendCommand_query_eq b cmd hq, hp]
  rfl

/-- Witness for C2 as amended: a position/velocity query on a bus whose
reply queue is empty (only a stale line from an earlier exchange). -/
theorem sendCommand_timeout_returns_empty_witness :
    ((startsWithChar "f 0" 'r' || startsWithChar "f 0" 'f') = true ∧
      (Bus.mk ["old line"] [] []).pending = []) ∧
    (sendCommand ⟨["old line"], [], []⟩ "f 0").1 = some "" :=
  ⟨⟨rfl, rfl⟩, sendCommand_timeout_returns_empty ⟨["old line"], [], []⟩
    "f 0" rfl rfl⟩

/-- Claim C9: `send_command` reads (and returns) one stripped line-delimited
reply exactly for commands starting with `r` or `f`; every other command
returns `None` and consumes no reply; in every case the command plus a line
break is written, and the stale input buffer is discarded first, so the
result never depends on it. -/
theorem sendCommand_query_write_spec (b : Bus) (cmd : String) :
    (sendCommand b cmd).1 =
      (if (startsWithChar cmd 'r' || startsWithChar cmd 'f') = true then
        some (strip (b.pending.headD "")) else none) ∧
    (sendCommand b cmd).2.pending =
      (if (startsWithChar cmd 'r' || startsWithChar cmd 'f') = true then
        b.pending.tail else b.pending) ∧
    (sendCommand b cmd).2.written = b.written ++ [cmd ++ "\n"] ∧
    sendCommand b cmd = sendCommand { b with stale := [] } cmd := by
  by_cases h : (startsWithChar cmd 'r' || startsWithChar cmd 'f') = true
  · rw [sendCommand_query_eq b cmd h,
      sendCommand_query_eq { b with stale := [] } cmd h, if_pos h, if_pos h]
    exact ⟨rfl, rfl, rfl, rfl⟩
  · have h' : (startsWithChar cmd 'r' || startsWithChar cmd 'f') = false := by
      simpa using h
    rw [sendCommand_write_eq b cmd h',
      sendCommand_write_eq { b with stale := [] } cmd h', if_neg h, if_neg h]
    exact ⟨rfl, rfl, rfl, rfl⟩

/-- Claim C10: `has_errors` queries the hard-coded axis indices 0 then 1
(independent of the configured `left_axis` / `right_axis` fields), returns
true at the first bad reply without writing the second query, and returns
false only when both replies parse to zero. -/
theorem has_errors_fixed_axes (o : ODrive) :
    (has_errors o).1 =
      (axisBad (strip (o.bus.pending.head?.getD "")) ||
        axisBad (strip (o.bus.pending[1]?.getD ""))) ∧
    (has_errors o).2.bus.written =
      o.bus.written ++
        (if axisBad (strip (o.bus.pending.head?.getD "")) then
          ["r axis0.error\n"]
        else ["r axis0.error\n", "r axis1.error\n"]) ∧
    (∀ la ra,
      (has_errors { o with left_axis := la, right_axis := ra }).1 =
        (has_errors o).1) := by
  refine ⟨?_, ?_, ?_⟩
  · rw [has_errors_eq]
    by_cases h : axisBad (strip (o.bus.pending.head?.getD "")) = true <;>
      simp [h]
  · rw [has_errors_eq]
    by_cases h : axisBad (strip (o.bus.pending.head?.getD "")) = true <;>
      simp [h]
  · intro la ra
    rw [has_errors_eq, has_errors_eq]
    by_cases h : axisBad (strip (o.bus.pending.head?.getD "")) = true <;>
      simp [h]

theorem cleanDigits_idem (s : String) :
    cleanDigits (cleanDigits s) = cleanDigits s := by
  unfold cleanDigits
  simp [List.filter_filter]

/-- Claim C6: `get_errors` strips non-digit characters before parsing (its
result is unchanged by deleting the non-digits first), returns the Unknown
value `-1` exactly when the reply cannot be parsed (no digits survive), and
the health check treats such an unreadable register as a fault:
`has_errors` returns true on it, never success. -/
theorem unparseable_error_reply_is_fault (reply : String) (o : ODrive)
    (hre : parseErrorCode reply = none)
    (ho : strip (o.bus.pending.head?.getD "") = reply) :
    get_errors reply = -1 ∧
    (has_errors o).1 = true ∧
    (∀ r, get_errors r = get_errors (cleanDigits r)) := by
  have hbad : axisBad reply = true := by
    unfold axisBad
    rw [hre]
  refine ⟨?_, ?_, ?_⟩
  · unfold get_errors
    rw [hre]
  · rw [has_errors_eq, ho, if_pos hbad]
  · intro r
    unfold get_errors parseErrorCode
    rw [cleanDigits_idem]

/-- Witness for C6: the reply `bogus` has no digits, fails to parse, and
drives `has_errors` to true. -/
theorem unparseable_error_reply_is_fault_witness :
    (parseErrorCode "bogus" = none ∧
      strip (((⟨⟨[], ["bogus"], []⟩, 1, 0⟩ :
        ODrive)).bus.pending.head?.getD "") = "bogus") ∧
    (get_errors "bogus" = -1 ∧
      (has_errors ⟨⟨[], ["bogus"], []⟩, 1, 0⟩).1 = true) :=
  ⟨⟨rfl, rfl⟩,
    ⟨(unparseable_error_reply_is_fault "bogus" ⟨⟨[], ["bogus"], []⟩, 1, 0⟩
        rfl rfl).1,
      (unparseable_error_reply_is_fault "bogus" ⟨⟨[], ["bogus"], []⟩, 1, 0⟩
        rfl rfl).2.1⟩⟩

end WaffleCar
